import Mathlib

/-!
Verification of the safe-kill permission-decision subsystem.

This file gives a shallow embedding of the core data model and operations of
the safe-kill tool (ancestry engine, rule set, policy engine, batch results)
and proves the key behavioural properties about them.  Definitions follow the
Rust source: pids are modelled as Nat, the OS process table as an explicit
snapshot value, and the external signal transport as a function parameter.
-/

namespace SafeKill

/-- Error type mirroring SafeKillError; only the variants reachable from the
modelled operations are included. -/
inductive SafeKillError where
  | InvalidPid (s : String)
  | NotDescendant (pid : Nat) (name : String)
  | Denylisted (name : String)
  | SuicidePrevention (pid : Nat)
  | ProcessNotFound (pid : Nat)
  | NoProcessOnPort (port : Nat)
  | PortNotAllowed (port : Nat) (hint : String)
  | PortDetectionError (port : Nat) (reason : String)
  | InvalidPortRange (s : String)
  | PermissionDenied (pid : Nat)
  | SystemError (s : String)
deriving DecidableEq

/-- Signals supported by the tool (signal.rs). -/
inductive Signal where
  | SIGHUP | SIGINT | SIGQUIT | SIGKILL | SIGTERM | SIGUSR1 | SIGUSR2
deriving DecidableEq

/-- Signal.name from signal.rs. -/
def Signal.name : Signal → String
  | .SIGHUP => "SIGHUP"
  | .SIGINT => "SIGINT"
  | .SIGQUIT => "SIGQUIT"
  | .SIGKILL => "SIGKILL"
  | .SIGTERM => "SIGTERM"
  | .SIGUSR1 => "SIGUSR1"
  | .SIGUSR2 => "SIGUSR2"

/-- One record of the process snapshot (process_info.rs ProcessInfo). -/
structure ProcessInfo where
  pid : Nat
  parent_pid : Option Nat
  name : String
  cmd : List String
deriving DecidableEq

/-- The OS process table, modelled as an explicit snapshot owned by the
provider, together with the pid of the running tool itself
(process_info.rs ProcessInfoProvider, with current_pid as a field). -/
structure ProcessInfoProvider where
  procs : List ProcessInfo
  current_pid : Nat

/-- ProcessInfoProvider.get: record for a pid, if present. -/
def ProcessInfoProvider.get (s : ProcessInfoProvider) (pid : Nat) : Option ProcessInfo :=
  s.procs.find? (fun p => p.pid == pid)

/-- ProcessInfoProvider.find_by_name: all exact-name matches. -/
def ProcessInfoProvider.find_by_name (s : ProcessInfoProvider) (name : String) :
    List ProcessInfo :=
  s.procs.filter (fun p => p.name == name)

/-- ProcessInfoProvider.all. -/
def ProcessInfoProvider.all (s : ProcessInfoProvider) : List ProcessInfo :=
  s.procs

/-- List of process names (config.rs ProcessList). -/
structure ProcessList where
  processes : List String
deriving DecidableEq

/-- Allowed ports configuration (config.rs AllowedPorts). -/
structure AllowedPorts where
  ports : List String
deriving DecidableEq

/-- Main configuration structure (config.rs Config). -/
structure Config where
  allowlist : Option ProcessList
  denylist : Option ProcessList
  allowed_ports : Option AllowedPorts
deriving DecidableEq

/-- Config.is_allowed: name is in the allowlist. -/
def Config.is_allowed (c : Config) (name : String) : Bool :=
  (c.allowlist.map (fun list => list.processes.any (fun p => p == name))).getD false

/-- Config.is_denied: name is in the denylist. -/
def Config.is_denied (c : Config) (name : String) : Bool :=
  (c.denylist.map (fun list => list.processes.any (fun p => p == name))).getD false

/-- A port specification: single port or inclusive range (config.rs PortRange). -/
inductive PortRange where
  | Single (port : Nat)
  | Range (start stop : Nat)
deriving DecidableEq

/-- Rust str::trim on the character list: drop whitespace at both ends. -/
def trimChars (s : List Char) : List Char :=
  ((s.dropWhile Char.isWhitespace).reverse.dropWhile Char.isWhitespace).reverse

/-- Rust str::split(c): split the character list at every occurrence of c,
keeping empty pieces. -/
def splitOnChar (c : Char) : List Char → List (List Char)
  | [] => [[]]
  | x :: xs =>
    if x = c then [] :: splitOnChar c xs
    else
      match splitOnChar c xs with
      | [] => [[x]]
      | y :: ys => (x :: y) :: ys

/-- Value of a digit string read in base 10. -/
def digitsToNat (s : List Char) : Nat :=
  s.foldl (fun n c => n * 10 + (c.toNat - 48)) 0

/-- Rust unsigned-integer FromStr: an optional leading plus sign followed by
at least one digit, rejecting values above the given bound. -/
def parseBounded (bound : Nat) (s : List Char) : Option Nat :=
  let t := match s with
    | '+' :: rest => rest
    | other => other
  if t ≠ [] ∧ t.all Char.isDigit then
    let n := digitsToNat t
    if n ≤ bound then some n else none
  else none

/-- str::parse::<u16>. -/
def parse_u16 (s : List Char) : Option Nat :=
  parseBounded 65535 s

/-- str::parse::<u32>. -/
def parse_u32 (s : List Char) : Option Nat :=
  parseBounded 4294967295 s

/-- PortRange::parse (config.rs): trim the spec; if it holds a dash, split on
dashes, require exactly two parts, parse each trimmed part as u16 and require
start at most stop; otherwise parse the whole spec as a single u16. -/
def PortRange.parse (spec : String) : Except SafeKillError PortRange :=
  let cs := trimChars spec.data
  let trimmed := String.mk cs
  if cs.contains '-' then
    match splitOnChar '-' cs with
    | [a, b] =>
      match parse_u16 (trimChars a), parse_u16 (trimChars b) with
      | some start, some stop =>
        if start > stop then .error (.InvalidPortRange trimmed)
        else .ok (.Range start stop)
      | _, _ => .error (.InvalidPortRange trimmed)
    | _ => .error (.InvalidPortRange trimmed)
  else
    match parse_u16 cs with
    | some p => .ok (.Single p)
    | none => .error (.InvalidPortRange trimmed)

/-- PortRange::contains. -/
def PortRange.containsPort : PortRange → Nat → Bool
  | .Single p, port => p == port
  | .Range start stop, port => start ≤ port && port ≤ stop

/-- Config::is_port_allowed: false when no allowed_ports configuration exists,
otherwise true iff some configured spec parses and contains the port. -/
def Config.is_port_allowed (c : Config) (port : Nat) : Bool :=
  match c.allowed_ports with
  | none => false
  | some allowed_ports =>
    allowed_ports.ports.any (fun spec =>
      match PortRange.parse spec with
      | .ok range => range.containsPort port
      | .error _ => false)

/-- Config::port_not_allowed_hint. -/
def Config.port_not_allowed_hint (_c : Config) (port : Nat) : String :=
  "Add " ++ toString port ++
    " to [allowed_ports] in config.toml or run \x27safe-kill init\x27 to create a config file"

/-- Config::check_port_allowed. -/
def Config.check_port_allowed (c : Config) (port : Nat) : Except SafeKillError Unit :=
  if c.is_port_allowed port then .ok ()
  else .error (.PortNotAllowed port (c.port_not_allowed_hint port))

/-- Maximum depth for ancestry traversal (ancestry.rs MAX_ANCESTRY_DEPTH). -/
def MAX_ANCESTRY_DEPTH : Nat := 100

/-- Ancestry checker: a snapshot provider plus the resolved trust-root pid
(ancestry.rs AncestryChecker). -/
structure AncestryChecker where
  provider : ProcessInfoProvider
  root_pid : Nat

/-- Trust-root resolution (ancestry.rs get_root_pid).  The environment
variable SAFE_KILL_ROOT_PID is modelled as an optional string value: when it
parses as u32 it is used verbatim; otherwise fall back to the grandparent of
the current process, then the parent, then the current pid itself. -/
def AncestryChecker.get_root_pid (env_root : Option String)
    (provider : ProcessInfoProvider) : Nat :=
  match env_root.bind (fun v => parse_u32 v.data) with
  | some pid => pid
  | none =>
    let current_pid := provider.current_pid
    match provider.get current_pid with
    | some current_info =>
      match current_info.parent_pid with
      | some parent_pid =>
        match (provider.get parent_pid).bind (fun info => info.parent_pid) with
        | some grandparent_pid => grandparent_pid
        | none => parent_pid
      | none => current_pid
    | none => current_pid

/-- The while loop of is_descendant_of: one unit of fuel per loop iteration,
MAX_ANCESTRY_DEPTH iterations in total.  Each iteration looks up the current
pid, fails on a missing record or missing parent, succeeds when the parent is
the ancestor, fails when the parent is pid 1, and otherwise moves up. -/
def AncestryChecker.walk (c : AncestryChecker) (ancestor_pid : Nat) :
    Nat → Nat → Bool
  | _, 0 => false
  | current_pid, fuel + 1 =>
    match c.provider.get current_pid with
    | none => false
    | some info =>
      match info.parent_pid with
      | none => false
      | some parent_pid =>
        if parent_pid == ancestor_pid then true
        else if parent_pid == 1 then false
        else c.walk ancestor_pid parent_pid fuel

/-- AncestryChecker::is_descendant_of (ancestry.rs). -/
def AncestryChecker.is_descendant_of (c : AncestryChecker)
    (target_pid ancestor_pid : Nat) : Bool :=
  if target_pid == ancestor_pid then true
  else c.walk ancestor_pid target_pid MAX_ANCESTRY_DEPTH

/-- AncestryChecker::is_descendant: convenience form against the trust root. -/
def AncestryChecker.is_descendant (c : AncestryChecker) (target_pid : Nat) : Bool :=
  c.is_descendant_of target_pid c.root_pid

/-- AncestryChecker::is_suicide: target is the current pid or the immediate
parent of the current pid per the snapshot. -/
def AncestryChecker.is_suicide (c : AncestryChecker) (target_pid : Nat) : Bool :=
  let current_pid := c.provider.current_pid
  if target_pid == current_pid then true
  else
    match c.provider.get current_pid with
    | some info =>
      match info.parent_pid with
      | some parent_pid => target_pid == parent_pid
      | none => false
    | none => false

/-- Result of a kill permission check (policy.rs KillPermission). -/
inductive KillPermission where
  | Allowed
  | AllowedByAllowlist
  | DeniedByDenylist (name : String)
  | DeniedNotDescendant
  | DeniedSuicidePrevention
deriving DecidableEq

/-- KillPermission::is_allowed. -/
def KillPermission.is_allowed : KillPermission → Bool
  | .Allowed => true
  | .AllowedByAllowlist => true
  | _ => false

/-- KillPermission::is_denied. -/
def KillPermission.is_denied (p : KillPermission) : Bool :=
  !p.is_allowed

/-- Result of one kill attempt (killer.rs KillResult). -/
structure KillResult where
  pid : Nat
  name : String
  success : Bool
  message : String
deriving DecidableEq

/-- Rendered message of a SafeKillError (the thiserror Display strings from
error.rs, used by KillResult::failure). -/
def SafeKillError.msg : SafeKillError → String
  | .InvalidPid s => "Invalid PID: " ++ s
  | .NotDescendant pid name =>
      "Process " ++ toString pid ++ " (" ++ name ++
        ") is not a descendant of the current session"
  | .Denylisted name => "Process " ++ name ++ " is in denylist and cannot be killed"
  | .SuicidePrevention pid =>
      "Cannot kill self or parent process (PID: " ++ toString pid ++ ")"
  | .ProcessNotFound pid => "Process " ++ toString pid ++ " not found"
  | .NoProcessOnPort port => "No process found on port " ++ toString port
  | .PortNotAllowed port hint =>
      "Port " ++ toString port ++ " is not allowed. " ++ hint
  | .PortDetectionError port reason =>
      "Failed to detect process on port " ++ toString port ++ ": " ++ reason
  | .InvalidPortRange s => "Invalid port range format: " ++ s
  | .PermissionDenied pid => "Permission denied for PID " ++ toString pid
  | .SystemError s => "System error: " ++ s

/-- KillResult::success constructor. -/
def KillResult.mkSuccess (pid : Nat) (name : String) (signal : Signal) : KillResult :=
  { pid := pid, name := name, success := true
    message := "Sent " ++ signal.name ++ " to process" }

/-- KillResult::failure constructor. -/
def KillResult.mkFailure (pid : Nat) (name : String) (error : SafeKillError) : KillResult :=
  { pid := pid, name := name, success := false, message := error.msg }

/-- KillResult::dry_run constructor. -/
def KillResult.mkDryRun (pid : Nat) (name : String) (signal : Signal) : KillResult :=
  { pid := pid, name := name, success := true
    message := "Would send " ++ signal.name ++ " to process (dry run)" }

/-- Result of a batch kill operation (killer.rs BatchKillResult). -/
structure BatchKillResult where
  results : List KillResult
  total_matched : Nat
  total_killed : Nat
deriving DecidableEq

/-- BatchKillResult::new. -/
def BatchKillResult.new : BatchKillResult :=
  { results := [], total_matched := 0, total_killed := 0 }

/-- BatchKillResult::add. -/
def BatchKillResult.add (b : BatchKillResult) (result : KillResult) : BatchKillResult :=
  { results := b.results ++ [result]
    total_matched := b.total_matched + 1
    total_killed := if result.success then b.total_killed + 1 else b.total_killed }

/-- A sequence of add calls, left to right. -/
def BatchKillResult.addAll (b : BatchKillResult) (rs : List KillResult) : BatchKillResult :=
  rs.foldl BatchKillResult.add b

/-- BatchKillResult::all_success. -/
def BatchKillResult.all_success (b : BatchKillResult) : Bool :=
  decide (0 < b.total_matched) && (b.total_killed == b.total_matched)

/-- BatchKillResult::any_success. -/
def BatchKillResult.any_success (b : BatchKillResult) : Bool :=
  decide (0 < b.total_killed)

/-- BatchKillResult::is_empty. -/
def BatchKillResult.is_empty (b : BatchKillResult) : Bool :=
  b.results.isEmpty

/-- Process killer: holds the external signal transport send primitive
(killer.rs ProcessKiller over signal.rs SignalSender::send). -/
structure ProcessKiller where
  send : Nat → Signal → Except SafeKillError Unit

/-- ProcessKiller::kill: delegates to the signal transport. -/
def ProcessKiller.kill (k : ProcessKiller) (pid : Nat) (signal : Signal) :
    Except SafeKillError Unit :=
  k.send pid signal

/-- ProcessKiller::kill_with_result: dry runs short-circuit before any signal
is sent; otherwise the transport outcome is converted to a KillResult. -/
def ProcessKiller.kill_with_result (k : ProcessKiller) (pid : Nat) (name : String)
    (signal : Signal) (dry_run : Bool) : KillResult :=
  if dry_run then KillResult.mkDryRun pid name signal
  else
    match k.kill pid signal with
    | .ok _ => KillResult.mkSuccess pid name signal
    | .error e => KillResult.mkFailure pid name e

/-- A process found listening on a port (port.rs PortProcess; protocol is
irrelevant to the policy decisions and omitted). -/
structure PortProcess where
  pid : Nat
  name : String
  port : Nat

/-- Policy engine (policy.rs PolicyEngine).  The port detector is modelled as
an external function from port to the processes bound to it. -/
structure PolicyEngine where
  config : Config
  ancestry : AncestryChecker
  killer : ProcessKiller
  provider : ProcessInfoProvider
  port_processes : Nat → Except SafeKillError (List PortProcess)

/-- PolicyEngine::can_kill: the ordered predicate chain for pid-scoped
operations, first match wins. -/
def PolicyEngine.can_kill (e : PolicyEngine) (process : ProcessInfo) : KillPermission :=
  if e.ancestry.is_suicide process.pid then .DeniedSuicidePrevention
  else if e.config.is_denied process.name then .DeniedByDenylist process.name
  else if e.config.is_allowed process.name then .AllowedByAllowlist
  else if e.ancestry.is_descendant process.pid then .Allowed
  else .DeniedNotDescendant

/-- PolicyEngine::kill_by_pid. -/
def PolicyEngine.kill_by_pid (e : PolicyEngine) (pid : Nat) (signal : Signal)
    (dry_run : Bool) : Except SafeKillError KillResult :=
  match e.provider.get pid with
  | none => .error (.ProcessNotFound pid)
  | some process =>
    match e.can_kill process with
    | .Allowed => .ok (e.killer.kill_with_result pid process.name signal dry_run)
    | .AllowedByAllowlist => .ok (e.killer.kill_with_result pid process.name signal dry_run)
    | .DeniedByDenylist name => .error (.Denylisted name)
    | .DeniedNotDescendant => .error (.NotDescendant pid process.name)
    | .DeniedSuicidePrevention => .error (.SuicidePrevention pid)

/-- The loop body of kill_by_name: evaluate can_kill for one match and build
its per-process result (success path or labeled failure). -/
def PolicyEngine.name_step (e : PolicyEngine) (signal : Signal) (dry_run : Bool)
    (process : ProcessInfo) : KillResult :=
  let permission := e.can_kill process
  if permission.is_allowed then
    e.killer.kill_with_result process.pid process.name signal dry_run
  else
    let error : SafeKillError :=
      match permission with
      | .DeniedByDenylist name => .Denylisted name
      | .DeniedNotDescendant => .NotDescendant process.pid process.name
      | .DeniedSuicidePrevention => .SuicidePrevention process.pid
      | _ => .SystemError "Unexpected permission"
    KillResult.mkFailure process.pid process.name error

/-- PolicyEngine::kill_by_name. -/
def PolicyEngine.kill_by_name (e : PolicyEngine) (name : String) (signal : Signal)
    (dry_run : Bool) : Except SafeKillError BatchKillResult :=
  let processes := e.provider.find_by_name name
  if processes.isEmpty then .error (.ProcessNotFound 0)
  else
    .ok (processes.foldl
      (fun batch process => batch.add (e.name_step signal dry_run process))
      BatchKillResult.new)

/-- PolicyEngine::can_kill_for_port: the reduced predicate for port-scoped
operations; only suicide prevention and denylist apply. -/
def PolicyEngine.can_kill_for_port (e : PolicyEngine) (pid : Nat) (name : String) :
    KillPermission :=
  if e.ancestry.is_suicide pid then .DeniedSuicidePrevention
  else if e.config.is_denied name then .DeniedByDenylist name
  else .Allowed

/-- The loop body of kill_by_port: resolve the display name from the snapshot
(falling back to the socket-reported name), evaluate the reduced predicate and
build the per-process result. -/
def PolicyEngine.port_step (e : PolicyEngine) (signal : Signal) (dry_run : Bool)
    (pp : PortProcess) : KillResult :=
  let process_name :=
    match e.provider.get pp.pid with
    | some p => p.name
    | none => pp.name
  let permission := e.can_kill_for_port pp.pid process_name
  if permission.is_allowed then
    e.killer.kill_with_result pp.pid process_name signal dry_run
  else
    let error : SafeKillError :=
      match permission with
      | .DeniedByDenylist name => .Denylisted name
      | .DeniedSuicidePrevention => .SuicidePrevention pp.pid
      | _ => .SystemError "Unexpected permission"
    KillResult.mkFailure pp.pid process_name error

/-- PolicyEngine::kill_by_port: the allowed-range check runs first, then the
port detector resolves the candidates, then the reduced predicate is applied
per candidate. -/
def PolicyEngine.kill_by_port (e : PolicyEngine) (port : Nat) (signal : Signal)
    (dry_run : Bool) : Except SafeKillError BatchKillResult :=
  match e.config.check_port_allowed port with
  | .error err => .error err
  | .ok _ =>
    match e.port_processes port with
    | .error err => .error err
    | .ok port_procs =>
      if port_procs.isEmpty then .error (.NoProcessOnPort port)
      else
        .ok (port_procs.foldl
          (fun batch pp => batch.add (e.port_step signal dry_run pp))
          BatchKillResult.new)

/-- PolicyEngine::list_killable. -/
def PolicyEngine.list_killable (e : PolicyEngine) : List ProcessInfo :=
  e.provider.all.filter (fun p => (e.can_kill p).is_allowed)

/-! ## Test fixtures used by witnesses -/

/-- A small concrete process snapshot: trust root 5, shell 10, the tool
itself 100 (current pid), a descendant 20, a stray process 30, and two
denylisted matches 40 and 41. -/
def testProvider : ProcessInfoProvider :=
  { procs :=
      [ { pid := 5, parent_pid := some 1, name := "term", cmd := [] }
      , { pid := 10, parent_pid := some 5, name := "bash", cmd := [] }
      , { pid := 100, parent_pid := some 10, name := "safe-kill", cmd := [] }
      , { pid := 20, parent_pid := some 10, name := "node", cmd := [] }
      , { pid := 30, parent_pid := some 1, name := "stray", cmd := [] }
      , { pid := 40, parent_pid := some 1, name := "bad", cmd := [] }
      , { pid := 41, parent_pid := some 1, name := "bad", cmd := [] } ]
    current_pid := 100 }

/-- A concrete rule set: the tool itself and a denylisted name both appear in
the allowlist, and the denylist holds the name bad; no allowed ports. -/
def testConfig : Config :=
  { allowlist := some { processes := ["safe-kill", "bad", "good"] }
    denylist := some { processes := ["bad"] }
    allowed_ports := none }

/-- A concrete engine over the test snapshot with trust root 5. -/
def testEngine : PolicyEngine :=
  { config := testConfig
    ancestry := { provider := testProvider, root_pid := 5 }
    killer := { send := fun _ _ => .error (.SystemError "no transport") }
    provider := testProvider
    port_processes := fun _ => .ok [] }

/-! ## Helper lemmas: batch aggregation -/

theorem BatchKillResult.addAll_nil (b : BatchKillResult) : b.addAll [] = b := rfl

theorem BatchKillResult.addAll_cons (b : BatchKillResult) (r : KillResult)
    (rs : List KillResult) : b.addAll (r :: rs) = (b.add r).addAll rs := rfl

theorem BatchKillResult.addAll_results (b : BatchKillResult) (rs : List KillResult) :
    (b.addAll rs).results = b.results ++ rs := by
  induction rs generalizing b with
  | nil => simp [BatchKillResult.addAll_nil]
  | cons r rs ih =>
    rw [BatchKillResult.addAll_cons, ih]
    simp [BatchKillResult.add]

theorem BatchKillResult.addAll_matched (b : BatchKillResult) (rs : List KillResult) :
    (b.addAll rs).total_matched = b.total_matched + rs.length := by
  induction rs generalizing b with
  | nil => simp [BatchKillResult.addAll_nil]
  | cons r rs ih =>
    rw [BatchKillResult.addAll_cons, ih]
    simp [BatchKillResult.add]
    omega

theorem BatchKillResult.addAll_killed (b : BatchKillResult) (rs : List KillResult) :
    (b.addAll rs).total_killed = b.total_killed + rs.countP (fun r => r.success) := by
  induction rs generalizing b with
  | nil => simp [BatchKillResult.addAll_nil]
  | cons r rs ih =>
    rw [BatchKillResult.addAll_cons, ih]
    simp [BatchKillResult.add, List.countP_cons]
    cases hr : r.success <;> simp [hr] <;> omega

/-- The fold inside kill_by_name and kill_by_port, rephrased through addAll. -/
theorem foldl_add_eq_addAll {α : Type} (f : α → KillResult) (l : List α)
    (b : BatchKillResult) :
    l.foldl (fun batch x => batch.add (f x)) b = b.addAll (l.map f) := by
  rw [BatchKillResult.addAll, List.foldl_map]

/-! ## Helper lemmas: ancestry traversal -/

/-- A finite parent chain from t up to the ancestor: k applications of the
parent link reach the ancestor, every intermediate pid has a snapshot record
with a parent, and no intermediate parent is pid 1 or the ancestor itself. -/
inductive ParentChain (s : ProcessInfoProvider) (ancestor : Nat) : Nat → Nat → Prop
  | direct {t : Nat} {info : ProcessInfo}
      (hget : s.get t = some info) (hpar : info.parent_pid = some ancestor) :
      ParentChain s ancestor t 1
  | step {t parent k : Nat} {info : ProcessInfo}
      (hget : s.get t = some info) (hpar : info.parent_pid = some parent)
      (hne : parent ≠ ancestor) (h1 : parent ≠ 1)
      (rest : ParentChain s ancestor parent k) :
      ParentChain s ancestor t (k + 1)

theorem ParentChain.one_le {s : ProcessInfoProvider} {a t k : Nat}
    (h : ParentChain s a t k) : 1 ≤ k := by
  cases h <;> omega

theorem walk_sound (c : AncestryChecker) {a t k : Nat}
    (h : ParentChain c.provider a t k) :
    ∀ fuel, k ≤ fuel → c.walk a t fuel = true := by
  induction h with
  | direct hget hpar =>
    intro fuel hf
    cases fuel with
    | zero => omega
    | succ f =>
      unfold AncestryChecker.walk
      simp [hget, hpar]
  | step hget hpar hne h1 _ ih =>
    intro fuel hf
    cases fuel with
    | zero => omega
    | succ f =>
      unfold AncestryChecker.walk
      simp [hget, hpar, hne, h1]
      exact ih f (by omega)

theorem walk_complete (c : AncestryChecker) (a : Nat) :
    ∀ fuel t, c.walk a t fuel = true →
      ∃ k, k ≤ fuel ∧ ParentChain c.provider a t k := by
  intro fuel
  induction fuel with
  | zero =>
    intro t h
    simp [AncestryChecker.walk] at h
  | succ f ih =>
    intro t h
    unfold AncestryChecker.walk at h
    cases hget : c.provider.get t with
    | none => simp [hget] at h
    | some info =>
      simp only [hget] at h
      cases hpar : info.parent_pid with
      | none => simp [hpar] at h
      | some parent =>
        simp only [hpar] at h
        by_cases hpa : parent = a
        · exact ⟨1, by omega, .direct hget (hpa ▸ hpar)⟩
        · by_cases hp1 : parent = 1
          · simp [hpa, hp1] at h
            exact absurd h (hp1 ▸ hpa)
          · simp [hpa, hp1] at h
            obtain ⟨k, hk, chain⟩ := ih parent h
            exact ⟨k + 1, by omega, .step hget hpar hpa hp1 chain⟩

theorem is_descendant_of_refl (c : AncestryChecker) (t : Nat) :
    c.is_descendant_of t t = true := by
  simp [AncestryChecker.is_descendant_of]

theorem is_descendant_of_sound (c : AncestryChecker) {a t k : Nat}
    (h : ParentChain c.provider a t k) (hk : k ≤ MAX_ANCESTRY_DEPTH) :
    c.is_descendant_of t a = true := by
  unfold AncestryChecker.is_descendant_of
  by_cases hta : t = a
  · simp [hta]
  · simp only [beq_iff_eq, hta, if_false]
    exact walk_sound c h MAX_ANCESTRY_DEPTH hk

theorem is_descendant_of_complete (c : AncestryChecker) {a t : Nat}
    (h : c.is_descendant_of t a = true) :
    t = a ∨ ∃ k, k ≤ MAX_ANCESTRY_DEPTH ∧ ParentChain c.provider a t k := by
  by_cases hta : t = a
  · exact Or.inl hta
  · unfold AncestryChecker.is_descendant_of at h
    simp only [beq_iff_eq, hta, if_false] at h
    exact Or.inr (walk_complete c a MAX_ANCESTRY_DEPTH t h)

/-! ## Claim theorems -/

/-- C1: can_kill returns the verdict of the first matching check in the fixed
order suicide prevention, denylist, allowlist, ancestry, with
DeniedNotDescendant as the default; in particular the own process is denied by
suicide prevention even when allowlisted, and a name in both lists yields
DeniedByDenylist only. -/
theorem C1_can_kill_first_match (e : PolicyEngine) (p : ProcessInfo) :
    (e.ancestry.is_suicide p.pid = true →
        e.can_kill p = .DeniedSuicidePrevention)
  ∧ (e.ancestry.is_suicide p.pid = false → e.config.is_denied p.name = true →
        e.can_kill p = .DeniedByDenylist p.name)
  ∧ (e.ancestry.is_suicide p.pid = false → e.config.is_denied p.name = false →
        e.config.is_allowed p.name = true →
        e.can_kill p = .AllowedByAllowlist)
  ∧ (e.ancestry.is_suicide p.pid = false → e.config.is_denied p.name = false →
        e.config.is_allowed p.name = false →
        e.ancestry.is_descendant p.pid = true →
        e.can_kill p = .Allowed)
  ∧ (e.ancestry.is_suicide p.pid = false → e.config.is_denied p.name = false →
        e.config.is_allowed p.name = false →
        e.ancestry.is_descendant p.pid = false →
        e.can_kill p = .DeniedNotDescendant)
  ∧ (e.config.is_allowed p.name = true → e.ancestry.is_suicide p.pid = true →
        e.can_kill p = .DeniedSuicidePrevention)
  ∧ (e.config.is_allowed p.name = true → e.config.is_denied p.name = true →
        e.ancestry.is_suicide p.pid = false →
        e.can_kill p = .DeniedByDenylist p.name) := by
  unfold PolicyEngine.can_kill
  refine ⟨?_, ?_, ?_, ?_, ?_, ?_, ?_⟩ <;> intros <;> simp_all

/-- Witness for C1 on the concrete engine: the tool process (allowlisted name)
is denied by suicide prevention, and a name in both lists is denied by the
denylist. -/
theorem C1_witness :
    testEngine.can_kill
        { pid := 100, parent_pid := some 10, name := "safe-kill", cmd := [] }
      = .DeniedSuicidePrevention
  ∧ testEngine.can_kill { pid := 40, parent_pid := some 1, name := "bad", cmd := [] }
      = .DeniedByDenylist "bad" :=
  ⟨(C1_can_kill_first_match testEngine
      { pid := 100, parent_pid := some 10, name := "safe-kill", cmd := [] }).2.2.2.2.2.1
      (by decide) (by decide),
   (C1_can_kill_first_match testEngine
      { pid := 40, parent_pid := some 1, name := "bad", cmd := [] }).2.2.2.2.2.2
      (by decide) (by decide) (by decide)⟩

/-- C2: is_descendant_of is reflexive; any parent chain of at most 100 hops
that avoids pid 1 makes the target a descendant; conversely a true verdict
for distinct pids comes only from such a chain of at most 100 hops (so
missing records, missing parents, reaching pid 1, or exceeding 100 hops all
yield false); and single-step behaviour matches the loop body. -/
theorem C2_is_descendant_of_spec (c : AncestryChecker) :
    (∀ t, c.is_descendant_of t t = true)
  ∧ (∀ t a k, ParentChain c.provider a t k → k ≤ 100 →
        c.is_descendant_of t a = true)
  ∧ (∀ t a, c.is_descendant_of t a = true →
        t = a ∨ ∃ k, k ≤ 100 ∧ ParentChain c.provider a t k)
  ∧ (∀ t a, t ≠ a → c.provider.get t = none → c.is_descendant_of t a = false)
  ∧ (∀ t a info, t ≠ a → c.provider.get t = some info →
        info.parent_pid = none → c.is_descendant_of t a = false)
  ∧ (∀ t a info, t ≠ a → c.provider.get t = some info →
        info.parent_pid = some a → c.is_descendant_of t a = true)
  ∧ (∀ t a info, t ≠ a → a ≠ 1 → c.provider.get t = some info →
        info.parent_pid = some 1 → c.is_descendant_of t a = false) := by
  refine ⟨is_descendant_of_refl c, ?_, ?_, ?_, ?_, ?_, ?_⟩
  · intro t a k h hk
    exact is_descendant_of_sound c h hk
  · intro t a h
    exact is_descendant_of_complete c h
  · intro t a hta hget
    cases hres : c.is_descendant_of t a with
    | false => rfl
    | true =>
      rcases is_descendant_of_complete c hres with h | ⟨k, _, chain⟩
      · exact absurd h hta
      · cases chain with
        | direct hget' _ => rw [hget] at hget'; exact absurd hget' (by simp)
        | step hget' _ _ _ _ => rw [hget] at hget'; exact absurd hget' (by simp)
  · intro t a info hta hget hpar
    cases hres : c.is_descendant_of t a with
    | false => rfl
    | true =>
      rcases is_descendant_of_complete c hres with h | ⟨k, _, chain⟩
      · exact absurd h hta
      · cases chain with
        | direct hget' hpar' =>
          rw [hget] at hget'
          cases hget'
          rw [hpar] at hpar'
          exact absurd hpar' (by simp)
        | step hget' hpar' _ _ _ =>
          rw [hget] at hget'
          cases hget'
          rw [hpar] at hpar'
          exact absurd hpar' (by simp)
  · intro t a info hta hget hpar
    exact is_descendant_of_sound c (.direct hget hpar) (by simp [MAX_ANCESTRY_DEPTH])
  · intro t a info hta ha1 hget hpar
    cases hres : c.is_descendant_of t a with
    | false => rfl
    | true =>
      rcases is_descendant_of_complete c hres with h | ⟨k, _, chain⟩
      · exact absurd h hta
      · cases chain with
        | direct hget' hpar' =>
          rw [hget] at hget'
          cases hget'
          rw [hpar] at hpar'
          exact absurd (Option.some.inj hpar').symm ha1
        | step hget' hpar' _ h1 _ =>
          rw [hget] at hget'
          cases hget'
          rw [hpar] at hpar'
          exact absurd (Option.some.inj hpar').symm h1

/-- Witness for C2 on the concrete snapshot: pid 20 reaches the trust root 5
through the two-hop parent chain 20 to 10 to 5. -/
theorem C2_witness :
    testEngine.ancestry.is_descendant_of 20 5 = true :=
  (C2_is_descendant_of_spec testEngine.ancestry).2.1 20 5 2
    (@ParentChain.step testEngine.ancestry.provider 5 20 10 1
      { pid := 20, parent_pid := some 10, name := "node", cmd := [] }
      (by decide) (by decide) (by decide) (by decide)
      (@ParentChain.direct testEngine.ancestry.provider 5 10
        { pid := 10, parent_pid := some 5, name := "bash", cmd := [] }
        (by decide) (by decide)))
    (by omega)

/-- C3: is_suicide is true exactly for the own pid and the snapshot parent of
the own pid, and its verdict does not depend on the trust root. -/
theorem C3_is_suicide_iff (c : AncestryChecker) (t : Nat) :
    (c.is_suicide t = true ↔
      (t = c.provider.current_pid ∨
        ∃ info, c.provider.get c.provider.current_pid = some info ∧
          info.parent_pid = some t))
  ∧ (∀ root_pid : Nat,
      (AncestryChecker.mk c.provider root_pid).is_suicide t = c.is_suicide t) := by
  constructor
  · unfold AncestryChecker.is_suicide
    by_cases h : t = c.provider.current_pid
    · simp [h]
    · simp only [beq_iff_eq, h, if_false]
      cases hg : c.provider.get c.provider.current_pid with
      | none => simp [h]
      | some info =>
        cases hp : info.parent_pid with
        | none => simp [h, hp]
        | some parent_pid =>
          simp [h, hp]
          exact eq_comm
  · intro root_pid
    rfl

/-- Witness for C3 on the concrete snapshot: pid 10, the parent of the tool
process 100, is protected by suicide prevention. -/
theorem C3_witness : testEngine.ancestry.is_suicide 10 = true :=
  (C3_is_suicide_iff testEngine.ancestry 10).1.mpr
    (Or.inr ⟨{ pid := 100, parent_pid := some 10, name := "safe-kill", cmd := [] },
      by decide, by decide⟩)

/-- C4: can_kill_for_port applies only suicide prevention then the denylist
and allows everything else; it is invariant under changes to the trust root
and to the allowlist, so ancestry and allowlist are never consulted. -/
theorem C4_can_kill_for_port_reduced (e : PolicyEngine) (pid : Nat) (name : String) :
    (e.ancestry.is_suicide pid = true →
        e.can_kill_for_port pid name = .DeniedSuicidePrevention)
  ∧ (e.ancestry.is_suicide pid = false → e.config.is_denied name = true →
        e.can_kill_for_port pid name = .DeniedByDenylist name)
  ∧ (e.ancestry.is_suicide pid = false → e.config.is_denied name = false →
        e.can_kill_for_port pid name = .Allowed)
  ∧ (∀ root_pid : Nat,
      ({ e with ancestry := { provider := e.ancestry.provider, root_pid := root_pid } }
          : PolicyEngine).can_kill_for_port pid name
        = e.can_kill_for_port pid name)
  ∧ (∀ al : Option ProcessList,
      ({ e with config := { e.config with allowlist := al } }
          : PolicyEngine).can_kill_for_port pid name
        = e.can_kill_for_port pid name) := by
  refine ⟨?_, ?_, ?_, fun _ => rfl, fun _ => rfl⟩ <;>
    · unfold PolicyEngine.can_kill_for_port
      intros
      simp_all

/-- Witness for C4 on the concrete engine: pid 30 is no descendant of the
trust root, yet the port path allows it because its name is not denylisted. -/
theorem C4_witness :
    testEngine.can_kill_for_port 30 "stray" = .Allowed
  ∧ testEngine.ancestry.is_descendant 30 = false :=
  ⟨(C4_can_kill_for_port_reduced testEngine 30 "stray").2.2.1 (by decide) (by decide),
   by decide⟩

/-- Helper: a denylisted name makes can_kill return a denied permission. -/
theorem can_kill_denied_of_denylisted (e : PolicyEngine) (p : ProcessInfo)
    (h : e.config.is_denied p.name = true) :
    (e.can_kill p).is_allowed = false := by
  unfold PolicyEngine.can_kill
  by_cases hs : e.ancestry.is_suicide p.pid <;>
    simp [hs, h, KillPermission.is_allowed]

/-- C5: with no allowed_ports configuration every port fails the allowed
check, a failed check makes kill_by_port return PortNotAllowed with the
remediation hint before any process on the port is resolved, and the check
passes exactly when some configured spec parses to a range containing the
port. -/
theorem C5_kill_by_port_opt_in (e : PolicyEngine) (port : Nat) (signal : Signal)
    (dry_run : Bool) :
    (e.config.allowed_ports = none → e.config.is_port_allowed port = false)
  ∧ (e.config.is_port_allowed port = false →
      e.kill_by_port port signal dry_run =
        .error (.PortNotAllowed port (e.config.port_not_allowed_hint port)))
  ∧ (e.config.is_port_allowed port = true ↔
      ∃ ap, e.config.allowed_ports = some ap ∧
        ∃ spec ∈ ap.ports, ∃ r, PortRange.parse spec = .ok r ∧
          r.containsPort port = true) := by
  refine ⟨?_, ?_, ?_⟩
  · intro h
    unfold Config.is_port_allowed
    rw [h]
  · intro h
    unfold PolicyEngine.kill_by_port Config.check_port_allowed
    rw [h]
    simp
  · unfold Config.is_port_allowed
    cases hap : e.config.allowed_ports with
    | none => simp
    | some ap =>
      simp only [List.any_eq_true, Option.some.injEq]
      constructor
      · rintro ⟨spec, hmem, hspec⟩
        refine ⟨ap, rfl, spec, hmem, ?_⟩
        cases hpr : PortRange.parse spec with
        | ok r => rw [hpr] at hspec; exact ⟨r, rfl, hspec⟩
        | error err => rw [hpr] at hspec; simp at hspec
      · rintro ⟨ap2, hap2, spec, hmem, r, hpr, hcont⟩
        cases hap2
        exact ⟨spec, hmem, by rw [hpr]; exact hcont⟩

/-- Witness for C5 on the concrete engine, whose configuration has no
allowed_ports section: port 3000 is rejected with PortNotAllowed. -/
theorem C5_witness :
    testEngine.kill_by_port 3000 .SIGTERM false =
      .error (.PortNotAllowed 3000 (testEngine.config.port_not_allowed_hint 3000)) :=
  (C5_kill_by_port_opt_in testEngine 3000 .SIGTERM false).2.1
    ((C5_kill_by_port_opt_in testEngine 3000 .SIGTERM false).1 rfl)

/-- C6: kill_by_name hard-fails with ProcessNotFound exactly when no process
matches; otherwise it returns a batch listing one labeled result per match
with total_matched equal to the match count, denied matches become failed
results, and when every match is denylisted no process is killed. -/
theorem C6_kill_by_name_batch (e : PolicyEngine) (name : String) (signal : Signal)
    (dry_run : Bool) :
    (e.provider.find_by_name name = [] ↔
      e.kill_by_name name signal dry_run = .error (.ProcessNotFound 0))
  ∧ (e.provider.find_by_name name ≠ [] →
      ∃ b, e.kill_by_name name signal dry_run = .ok b
        ∧ b.results = (e.provider.find_by_name name).map (e.name_step signal dry_run)
        ∧ b.total_matched = (e.provider.find_by_name name).length
        ∧ b.total_killed =
            ((e.provider.find_by_name name).map (e.name_step signal dry_run)).countP
              (fun r => r.success))
  ∧ (∀ p, (e.can_kill p).is_allowed = false →
      (e.name_step signal dry_run p).pid = p.pid
      ∧ (e.name_step signal dry_run p).name = p.name
      ∧ (e.name_step signal dry_run p).success = false)
  ∧ (e.provider.find_by_name name ≠ [] →
      (∀ p ∈ e.provider.find_by_name name, e.config.is_denied p.name = true) →
      ∃ b, e.kill_by_name name signal dry_run = .ok b
        ∧ b.total_matched = (e.provider.find_by_name name).length
        ∧ b.total_killed = 0) := by
  have hstep : ∀ p, (e.can_kill p).is_allowed = false →
      (e.name_step signal dry_run p).pid = p.pid
      ∧ (e.name_step signal dry_run p).name = p.name
      ∧ (e.name_step signal dry_run p).success = false := by
    intro p hdenied
    unfold PolicyEngine.name_step
    simp [hdenied, KillResult.mkFailure]
  have hbatch : e.provider.find_by_name name ≠ [] →
      ∃ b, e.kill_by_name name signal dry_run = .ok b
        ∧ b.results = (e.provider.find_by_name name).map (e.name_step signal dry_run)
        ∧ b.total_matched = (e.provider.find_by_name name).length
        ∧ b.total_killed =
            ((e.provider.find_by_name name).map (e.name_step signal dry_run)).countP
              (fun r => r.success) := by
    intro hne
    unfold PolicyEngine.kill_by_name
    rw [if_neg (by simpa [List.isEmpty_iff] using hne)]
    rw [foldl_add_eq_addAll]
    refine ⟨_, rfl, ?_, ?_, ?_⟩
    · rw [BatchKillResult.addAll_results]; rfl
    · rw [BatchKillResult.addAll_matched]; simp [BatchKillResult.new]
    · rw [BatchKillResult.addAll_killed]; simp [BatchKillResult.new]
  refine ⟨?_, hbatch, hstep, ?_⟩
  · constructor
    · intro h
      unfold PolicyEngine.kill_by_name
      rw [if_pos (by simp [h])]
    · intro h
      by_contra hne
      obtain ⟨b, hb, _⟩ := hbatch hne
      rw [hb] at h
      exact absurd h (by simp)
  · intro hne hdeny
    obtain ⟨b, hb, _, hmatched, hkilled⟩ := hbatch hne
    refine ⟨b, hb, hmatched, ?_⟩
    rw [hkilled, List.countP_eq_zero]
    intro r hr
    rw [List.mem_map] at hr
    obtain ⟨p, hp, rfl⟩ := hr
    have := (hstep p (can_kill_denied_of_denylisted e p (hdeny p hp))).2.2
    simp [this]

/-- Witness for C6 on the concrete engine: the name bad matches two processes,
both denylisted, giving a batch with two matches and zero kills; an unknown
name hard-fails with ProcessNotFound. -/
theorem C6_witness :
    (∃ b, testEngine.kill_by_name "bad" .SIGTERM false = .ok b
      ∧ b.total_matched = (testEngine.provider.find_by_name "bad").length
      ∧ b.total_killed = 0)
  ∧ testEngine.kill_by_name "nope" .SIGTERM false = .error (.ProcessNotFound 0) :=
  ⟨(C6_kill_by_name_batch testEngine "bad" .SIGTERM false).2.2.2
      (by decide) (by decide),
   (C6_kill_by_name_batch testEngine "nope" .SIGTERM false).1.mp (by decide)⟩

/-- Helper: a dry run short-circuits kill_with_result to the dry-run result. -/
theorem kill_with_result_dry (k : ProcessKiller) (pid : Nat) (name : String)
    (signal : Signal) :
    k.kill_with_result pid name signal true = KillResult.mkDryRun pid name signal := rfl

/-- Helper: under dry_run the per-match result of kill_by_name does not
depend on the signal transport. -/
theorem name_step_killer_indep (e : PolicyEngine) (k1 k2 : ProcessKiller)
    (signal : Signal) (process : ProcessInfo) :
    ({ e with killer := k1 } : PolicyEngine).name_step signal true process =
    ({ e with killer := k2 } : PolicyEngine).name_step signal true process := by
  have hc : ({ e with killer := k1 } : PolicyEngine).can_kill process
      = ({ e with killer := k2 } : PolicyEngine).can_kill process := rfl
  simp only [PolicyEngine.name_step]
  rw [hc, kill_with_result_dry, kill_with_result_dry]

/-- C7: with dry_run set, kill_with_result never consults the signal
transport and yields the dry-run success result, and a policy-denied
candidate produces the identical failure result whether or not dry_run is
set; kill_by_name under dry_run is likewise transport-independent. -/
theorem C7_dry_run_frame (e : PolicyEngine) (p : ProcessInfo) (pid : Nat)
    (name : String) (signal : Signal) :
    (∀ s1 s2 : Nat → Signal → Except SafeKillError Unit,
      (ProcessKiller.mk s1).kill_with_result pid name signal true =
        (ProcessKiller.mk s2).kill_with_result pid name signal true)
  ∧ e.killer.kill_with_result pid name signal true = KillResult.mkDryRun pid name signal
  ∧ (KillResult.mkDryRun pid name signal).success = true
  ∧ ((e.can_kill p).is_allowed = false →
      e.name_step signal true p = e.name_step signal false p
      ∧ (e.name_step signal true p).success = false
      ∧ (e.name_step signal true p).pid = p.pid
      ∧ (e.name_step signal true p).name = p.name)
  ∧ (∀ s1 s2 : Nat → Signal → Except SafeKillError Unit, ∀ target : String,
      ({ e with killer := ProcessKiller.mk s1 } : PolicyEngine).kill_by_name
          target signal true
        = ({ e with killer := ProcessKiller.mk s2 } : PolicyEngine).kill_by_name
          target signal true) := by
  refine ⟨fun _ _ => rfl, rfl, rfl, ?_, ?_⟩
  · intro hdenied
    unfold PolicyEngine.name_step
    simp [hdenied, KillResult.mkFailure]
  · intro s1 s2 target
    rfl

/-- Witness for C7 on the concrete engine: for the denylisted process 40 the
dry and real runs produce the same failure result. -/
theorem C7_witness :
    testEngine.name_step .SIGTERM true
        { pid := 40, parent_pid := some 1, name := "bad", cmd := [] }
      = testEngine.name_step .SIGTERM false
        { pid := 40, parent_pid := some 1, name := "bad", cmd := [] } :=
  ((C7_dry_run_frame testEngine
      { pid := 40, parent_pid := some 1, name := "bad", cmd := [] }
      40 "bad" .SIGTERM).2.2.2.1 (by decide)).1

/-- C8: PortRange parsing accepts single ports and inclusive ranges with
start at most stop, trims surrounding whitespace, and rejects non-numeric
parts, inverted ranges and extra dashes; containment is as expected on the
parsed range of 3000-3100. -/
theorem C8_port_range_parse (s : String) :
    (∀ a b, PortRange.parse s = .ok (.Range a b) → a ≤ b)
  ∧ (∀ p q : Nat, (PortRange.Single p).containsPort q = true ↔ p = q)
  ∧ (∀ a b q : Nat, (PortRange.Range a b).containsPort q = true ↔ a ≤ q ∧ q ≤ b)
  ∧ PortRange.parse "3000-3100" = .ok (.Range 3000 3100)
  ∧ PortRange.parse " 3000 - 3100 " = .ok (.Range 3000 3100)
  ∧ PortRange.parse "3306" = .ok (.Single 3306)
  ∧ ((PortRange.Range 3000 3100).containsPort 3000 = true
      ∧ (PortRange.Range 3000 3100).containsPort 3100 = true
      ∧ (PortRange.Range 3000 3100).containsPort 2999 = false
      ∧ (PortRange.Range 3000 3100).containsPort 3101 = false)
  ∧ PortRange.parse "100-50" = .error (.InvalidPortRange "100-50")
  ∧ PortRange.parse "abc" = .error (.InvalidPortRange "abc")
  ∧ PortRange.parse "1-2-3" = .error (.InvalidPortRange "1-2-3") := by
  refine ⟨?_, ?_, ?_, rfl, rfl, rfl, by decide, rfl, rfl, rfl⟩
  · intro a b h
    simp only [PortRange.parse] at h
    split at h
    · split at h
      · split at h
        · split at h
          · exact absurd h (by simp)
          · rename_i hgt
            simp only [Except.ok.injEq, PortRange.Range.injEq] at h
            omega
        · exact absurd h (by simp)
      · exact absurd h (by simp)
    · split at h
      · simp at h
      · exact absurd h (by simp)
  · intro p q
    simp [PortRange.containsPort]
  · intro a b q
    simp [PortRange.containsPort]

/-- Witness for C8: the parsed range 3000-3100 is well ordered, obtained by
applying the invariant to the concrete parse. -/
theorem C8_witness : (3000 : Nat) ≤ 3100 :=
  (C8_port_range_parse "3000-3100").1 3000 3100 rfl

/-- C9: the trust root is the parsed override value when one is supplied,
otherwise the grandparent of the current process, else the immediate parent,
else the current pid itself. -/
theorem C9_root_resolution (env : Option String) (s : ProcessInfoProvider) :
    (∀ str pid, env = some str → parse_u32 str.data = some pid →
        AncestryChecker.get_root_pid env s = pid)
  ∧ (env.bind (fun v => parse_u32 v.data) = none →
      ∀ info parent_pid grandparent_pid,
        s.get s.current_pid = some info →
        info.parent_pid = some parent_pid →
        (s.get parent_pid).bind (fun i => i.parent_pid) = some grandparent_pid →
        AncestryChecker.get_root_pid env s = grandparent_pid)
  ∧ (env.bind (fun v => parse_u32 v.data) = none →
      ∀ info parent_pid,
        s.get s.current_pid = some info →
        info.parent_pid = some parent_pid →
        (s.get parent_pid).bind (fun i => i.parent_pid) = none →
        AncestryChecker.get_root_pid env s = parent_pid)
  ∧ (env.bind (fun v => parse_u32 v.data) = none →
      (s.get s.current_pid).bind (fun i => i.parent_pid) = none →
      AncestryChecker.get_root_pid env s = s.current_pid) := by
  refine ⟨?_, ?_, ?_, ?_⟩
  · intro str pid henv hparse
    unfold AncestryChecker.get_root_pid
    rw [henv]
    simp [hparse]
  · intro henv info parent_pid grandparent_pid hget hpar hgp
    unfold AncestryChecker.get_root_pid
    rw [henv]
    simp [hget, hpar, hgp]
  · intro henv info parent_pid hget hpar hgp
    unfold AncestryChecker.get_root_pid
    rw [henv]
    simp [hget, hpar, hgp]
  · intro henv hnone
    unfold AncestryChecker.get_root_pid
    rw [henv]
    cases hget : s.get s.current_pid with
    | none => simp [hget]
    | some info =>
      rw [hget] at hnone
      simp at hnone
      simp [hget, hnone]

/-- Witness for C9 on the concrete snapshot: the override value 42 wins, and
without an override the grandparent 5 of the tool process is the root. -/
theorem C9_witness :
    AncestryChecker.get_root_pid (some "42") testProvider = 42
  ∧ AncestryChecker.get_root_pid none testProvider = 5 :=
  ⟨(C9_root_resolution (some "42") testProvider).1 "42" 42 rfl (by decide),
   (C9_root_resolution none testProvider).2.1 rfl
     { pid := 100, parent_pid := some 10, name := "safe-kill", cmd := [] }
     10 5 (by decide) (by decide) (by decide)⟩

/-- C10: a batch built from new by any sequence of add calls records every
result in order, counts every add in total_matched, counts exactly the
successful results in total_killed (so killed never exceeds matched),
all_success holds exactly for a non-empty all-successful batch, and
any_success exactly when some result succeeded. -/
theorem C10_batch_invariants (rs : List KillResult) :
    (BatchKillResult.new.addAll rs).results = rs
  ∧ (BatchKillResult.new.addAll rs).total_matched = rs.length
  ∧ (BatchKillResult.new.addAll rs).total_matched
      = (BatchKillResult.new.addAll rs).results.length
  ∧ (BatchKillResult.new.addAll rs).total_killed = rs.countP (fun r => r.success)
  ∧ (BatchKillResult.new.addAll rs).total_killed
      ≤ (BatchKillResult.new.addAll rs).total_matched
  ∧ ((BatchKillResult.new.addAll rs).all_success = true ↔
      rs ≠ [] ∧ ∀ r ∈ rs, r.success = true)
  ∧ ((BatchKillResult.new.addAll rs).any_success = true ↔
      ∃ r ∈ rs, r.success = true) := by
  have hres : (BatchKillResult.new.addAll rs).results = rs := by
    rw [BatchKillResult.addAll_results]; rfl
  have hmatched : (BatchKillResult.new.addAll rs).total_matched = rs.length := by
    rw [BatchKillResult.addAll_matched]; simp [BatchKillResult.new]
  have hkilled : (BatchKillResult.new.addAll rs).total_killed
      = rs.countP (fun r => r.success) := by
    rw [BatchKillResult.addAll_killed]; simp [BatchKillResult.new]
  refine ⟨hres, hmatched, ?_, hkilled, ?_, ?_, ?_⟩
  · rw [hmatched, hres]
  · rw [hmatched, hkilled]
    exact List.countP_le_length _
  · unfold BatchKillResult.all_success
    rw [hmatched, hkilled]
    simp only [Bool.and_eq_true, decide_eq_true_eq, beq_iff_eq]
    constructor
    · rintro ⟨hpos, heq⟩
      refine ⟨by
        intro hnil
        rw [hnil] at hpos
        simp at hpos, ?_⟩
      exact List.countP_eq_length.mp heq
    · rintro ⟨hne, hall⟩
      refine ⟨?_, ?_⟩
      · cases rs with
        | nil => exact absurd rfl hne
        | cons r rs => simp
      · exact List.countP_eq_length.mpr hall
  · unfold BatchKillResult.any_success
    rw [hkilled]
    simp only [decide_eq_true_eq]
    rw [List.countP_pos]

/-- Witness for C10 on a concrete two-element batch: one success and one
failure give killed at most matched. -/
theorem C10_witness :
    (BatchKillResult.new.addAll
        [ KillResult.mkDryRun 1 "a" .SIGTERM
        , KillResult.mkFailure 2 "b" (.Denylisted "b") ]).total_killed
      ≤ (BatchKillResult.new.addAll
        [ KillResult.mkDryRun 1 "a" .SIGTERM
        , KillResult.mkFailure 2 "b" (.Denylisted "b") ]).total_matched :=
  (C10_batch_invariants
    [ KillResult.mkDryRun 1 "a" .SIGTERM
    , KillResult.mkFailure 2 "b" (.Denylisted "b") ]).2.2.2.2.1

end SafeKill
